import Mathlib

/-!
Shallow embedding of the chatbot service (src/chatbot-service/chatbot_service.py).

Python strings are modelled as Lean `String`s (lists of characters), except in
the intent classifier where the codepoint-level case operations make a
`List Nat` codepoint model more convenient.  Character classes of Python's
`re` module (`\w`, `\d`, `\s`) and `str.lower`/`str.upper` are modelled at
their ASCII meaning.  Python values flowing out of `json`-decoded bodies are
modelled by the inductive `Json`; Python truthiness and `dict.get` are
modelled explicitly.  Each downstream HTTP call is modelled by passing its
outcome (a status/body pair, or a raised exception carrying its description)
as an explicit argument.
-/

/-! ### Base-URL normalization and resolution (lines 37-46, 60-66) -/

/-- `url.rstrip("/")`: drop every trailing `'/'`. -/
def rstripSlashes (s : String) : String :=
  String.mk (List.rdropWhile (fun c => c == '/') s.data)

/-- `_normalize_base_url` (line 37): `None`/empty (falsy) stays `None`,
otherwise trailing slashes are stripped. -/
def _normalize_base_url (url : Option String) : Option String :=
  match url with
  | none => none
  | some s => if s.isEmpty then none else some (rstripSlashes s)

/-- Python truthiness of an optional string (`if url:`). -/
def optTruthy (o : Option String) : Bool :=
  match o with
  | none => false
  | some s => !s.isEmpty

/-- The four configured base URLs (lines 31-34), before or after startup
normalization. -/
structure BaseUrlConfig where
  apiGatewayUrl : Option String
  appointmentServiceBaseUrl : Option String
  patientServiceBaseUrl : Option String
  doctorServiceBaseUrl : Option String

/-- Startup normalization of all configured base URLs (lines 43-46). -/
def normalizeStartupConfig (c : BaseUrlConfig) : BaseUrlConfig :=
  { apiGatewayUrl := _normalize_base_url c.apiGatewayUrl
    appointmentServiceBaseUrl := _normalize_base_url c.appointmentServiceBaseUrl
    patientServiceBaseUrl := _normalize_base_url c.patientServiceBaseUrl
    doctorServiceBaseUrl := _normalize_base_url c.doctorServiceBaseUrl }

/-- `resolve_appointment_base_url` (lines 60-66); its two free variables are
the (already normalized) module globals `APPOINTMENT_SERVICE_BASE_URL` and
`API_GATEWAY_URL`. -/
def resolve_appointment_base_url
    (appointmentServiceBaseUrl apiGatewayUrl : Option String) : String :=
  if optTruthy appointmentServiceBaseUrl then appointmentServiceBaseUrl.getD ""
  else if optTruthy apiGatewayUrl then apiGatewayUrl.getD "" ++ "/appointments"
  else "http://appointment-service:8083"

/-! ### Python/JSON values -/

/-- Decoded JSON values as Python objects (`resp.json()` results). -/
inductive Json where
  | null
  | bool (b : Bool)
  | num (n : Int)
  | str (s : String)
  | arr (xs : List Json)
  | obj (fields : List (String × Json))

/-- Python truthiness of a decoded JSON value. -/
def jsonTruthy : Json → Bool
  | .null => false
  | .bool b => b
  | .num n => n != 0
  | .str s => !s.isEmpty
  | .arr xs => !xs.isEmpty
  | .obj fs => !fs.isEmpty

/-- `a or b` on Python values: `a` if truthy, else `b`. -/
def pyOr (a b : Json) : Json :=
  if jsonTruthy a then a else b

/-- `d.get(k)` on a decoded JSON object (assoc list without duplicate keys):
the value if the key is present, else `None`. -/
def dictGet (fs : List (String × Json)) (k : String) : Json :=
  match fs.lookup k with
  | some v => v
  | none => .null

/-- Python type name of a decoded JSON value, as used in `AttributeError`
messages. -/
def pyTypeName : Json → String
  | .null => "NoneType"
  | .bool _ => "bool"
  | .num _ => "int"
  | .str _ => "str"
  | .arr _ => "list"
  | .obj _ => "dict"

/-- Python `repr` of a decoded JSON value (escape sequences inside nested
strings are not modelled; no claim evaluates those). -/
def pyRepr : Json → String
  | .null => "None"
  | .bool true => "True"
  | .bool false => "False"
  | .num n => toString n
  | .str s => "'" ++ s ++ "'"
  | .arr xs =>
      "[" ++ String.intercalate ", " (xs.attach.map (fun x => pyRepr x.1)) ++ "]"
  | .obj fs =>
      "\x7b" ++
        String.intercalate ", "
          (fs.attach.map (fun kv => "'" ++ kv.1.1 ++ "': " ++ pyRepr kv.1.2)) ++
        "\x7d"
decreasing_by
  all_goals first
  | (have hx := List.sizeOf_lt_of_mem x.2
     simp only [Json.arr.sizeOf_spec]
     omega)
  | (have hkv := List.sizeOf_lt_of_mem kv.2
     have hsnd : sizeOf kv.1.2 < sizeOf (kv.1 : String × Json) := by
       obtain ⟨a, b⟩ := (kv.1 : String × Json)
       simp
     simp only [Json.obj.sizeOf_spec]
     omega)

/-- Python `str()` of a decoded JSON value, as interpolated by an f-string:
the bare string for `str`, `repr` for containers, and the usual renderings
for `None`/`bool`/`int` (for which `str` and `repr` agree). -/
def pyStrOf : Json → String
  | .null => "None"
  | .bool true => "True"
  | .bool false => "False"
  | .num n => toString n
  | .str s => s
  | .arr xs => pyRepr (.arr xs)
  | .obj fs => pyRepr (.obj fs)

/-! ### Downstream HTTP outcomes -/

/-- Outcome of one `requests` call from the caller's point of view:
either a response carrying a status code and the result of `.json()`
(`Except` models a parse failure raising), or a raised exception
(timeout, connection error, ...) carrying its rendered description. -/
inductive HttpOutcome where
  | response (status : Nat) (body : Except String Json)
  | exn (desc : String)

/-! ### book_appointment_via_api (lines 69-90) -/

/-- Entity payload for the booking POST (lines 79-82); `None` fields are
forwarded as JSON `null`. -/
def jsonOfOpt (o : Option String) : Json :=
  match o with
  | none => .null
  | some s => .str s

/-- `book_appointment_via_api` (lines 69-90), given the outcome of the POST.
The Python function's declared return type is `str`, but on a success body
whose `message` field is truthy the raw field value is returned, so the
model returns a Python value (`Json`); every template branch returns a
`.str`. -/
def book_appointment_via_api (message : String) (outcome : HttpOutcome) : Json :=
  match outcome with
  | .exn e =>
      .str ("Sorry, something went wrong while booking the appointment: " ++ e)
  | .response status body =>
      if 400 ≤ status then
        .str ("Sorry, I couldn't book the appointment right now (status " ++
          toString status ++ ").")
      else
        match body with
        | .error e =>
            .str ("Sorry, something went wrong while booking the appointment: " ++ e)
        | .ok data =>
            match data with
            | .obj fs =>
                pyOr (dictGet fs "message")
                  (.str "Your appointment request has been submitted.")
            | other =>
                .str ("Sorry, something went wrong while booking the appointment: '"
                  ++ pyTypeName other ++ "' object has no attribute 'get'")

/-! ### fetch_appointments_via_api (lines 93-110) -/

/-- The f-string of line 106 for one appointment object: doctor is the
`or`-chain over `doctorName`/`doctor`/`doctor_id`, date the chain over
`date`/`appointmentDate`. -/
def renderApptLineObj (fs : List (String × Json)) : String :=
  let doctor := pyOr (dictGet fs "doctorName")
    (pyOr (dictGet fs "doctor") (dictGet fs "doctor_id"))
  let date := pyOr (dictGet fs "date") (dictGet fs "appointmentDate")
  "- " ++ pyStrOf date ++ " with Dr. " ++ pyStrOf doctor

/-- One iteration of the rendering loop (lines 103-106): `appt.get` on a
non-dict raises `AttributeError`. -/
def renderApptLine (appt : Json) : Except String String :=
  match appt with
  | .obj fs => .ok (renderApptLineObj fs)
  | other => .error ("'" ++ pyTypeName other ++ "' object has no attribute 'get'")

/-- The rendering loop over `data[:5]` (lines 102-106): stops at the first
raised exception. -/
def renderLines : List Json → Except String (List String)
  | [] => .ok []
  | a :: rest =>
      match renderApptLine a with
      | .error e => .error e
      | .ok line =>
          match renderLines rest with
          | .error e => .error e
          | .ok ls => .ok (line :: ls)

/-- The line produced for one list entry when every entry is an object
(the only case in which the loop completes). -/
def renderedLine (j : Json) : String :=
  match j with
  | .obj fs => renderApptLineObj fs
  | _ => ""

/-- `fetch_appointments_via_api` (lines 93-110), given the outcome of the GET. -/
def fetch_appointments_via_api (outcome : HttpOutcome) : String :=
  match outcome with
  | .exn e => "Sorry, something went wrong while fetching appointments: " ++ e
  | .response status body =>
      if 400 ≤ status then
        "Couldn't fetch appointments (status " ++ toString status ++ ")."
      else
        match body with
        | .error e => "Sorry, something went wrong while fetching appointments: " ++ e
        | .ok data =>
            match data with
            | .arr (x :: xs) =>
                match renderLines ((x :: xs).take 5) with
                | .ok lines =>
                    "Here are your upcoming appointments:\n" ++
                      String.intercalate "\n" lines
                | .error e =>
                    "Sorry, something went wrong while fetching appointments: " ++ e
            | _ => "You have no upcoming appointments."

/-! ### Entity extraction (lines 73-77): the two `re.search` patterns -/

/-- Python `\s` at its ASCII meaning. -/
def isPyWs (c : Char) : Bool :=
  c == ' ' || c == '\t' || c == '\n' || c == '\r' || c == '\x0b' || c == '\x0c'

/-- `[a-zA-Z]`. -/
def isAsciiLetter (c : Char) : Bool :=
  ('a' ≤ c && c ≤ 'z') || ('A' ≤ c && c ≤ 'Z')

/-- Case-insensitive character comparison (`re.IGNORECASE`, ASCII). -/
def ciEqChar (a b : Char) : Bool := a.toLower == b.toLower

/-- Match a literal case-insensitively as a prefix, returning the rest. -/
def ciDrop : List Char → List Char → Option (List Char)
  | [], l => some l
  | _ :: _, [] => none
  | a :: pat, c :: cs => if ciEqChar a c then ciDrop pat cs else none

/-- `\s+` (greedy): at least one whitespace char, consume the whole run. -/
def wsPlus : List Char → Option (List Char)
  | [] => none
  | c :: cs => if isPyWs c then some (cs.dropWhile isPyWs) else none

/-- `([a-zA-Z]+)` (greedy): the maximal nonempty letter run at this position. -/
def lettersPlus (l : List Char) : Option (List Char) :=
  match l.takeWhile isAsciiLetter with
  | [] => none
  | c :: cs => some (c :: cs)

/-- `\.?` after `dr`: consume one dot when present. -/
def dropOptDot : List Char → List Char
  | '.' :: rest => rest
  | l => l

/-- One attempt of `with\s+dr\.?\s+([a-zA-Z]+)` (case-insensitive) at the
current position; returns the captured group.  The optional dot is consumed
when present (if the dot is present but not followed by whitespace, the
no-dot alternative fails on the dot as well, so consuming it is faithful). -/
def matchDoctorAt (l : List Char) : Option (List Char) :=
  match ciDrop ['w', 'i', 't', 'h'] l with
  | none => none
  | some l1 =>
      match wsPlus l1 with
      | none => none
      | some l2 =>
          match ciDrop ['d', 'r'] l2 with
          | none => none
          | some l3 =>
              match wsPlus (dropOptDot l3) with
              | none => none
              | some l5 => lettersPlus l5

/-- `re.search` scan for the doctor pattern: leftmost match wins. -/
def findDoctorFrom : List Char → Option (List Char)
  | [] => none
  | c :: rest =>
      match matchDoctorAt (c :: rest) with
      | some name => some name
      | none => findDoctorFrom rest

/-- `doctor_match.group(1) if doctor_match else None` (lines 73, 76). -/
def extract_doctor (message : String) : Option String :=
  (findDoctorFrom message.data).map String.mk

/-- Python `\w` at its ASCII meaning (`[0-9A-Za-z_]`). -/
def isWordChar (c : Char) : Bool := c.isAlphanum || c == '_'

/-- `\b` on the left of a match starting with a word char. -/
def boundaryBefore (prev : Option Char) : Bool :=
  match prev with
  | none => true
  | some c => !isWordChar c

/-- `\b` on the right of a match ending with a word char. -/
def boundaryAfter : List Char → Bool
  | [] => true
  | c :: _ => !isWordChar c

/-- Case-insensitive literal as a prefix, returning (matched slice, rest);
the slice keeps the original casing, as `group(1)` does. -/
def ciTake : List Char → List Char → Option (List Char × List Char)
  | [], l => some ([], l)
  | _ :: _, [] => none
  | a :: pat, c :: cs =>
      if ciEqChar a c then (ciTake pat cs).map (fun p => (c :: p.1, p.2)) else none

/-- Exactly `n` ASCII digits (`\d` at its ASCII meaning). -/
def digitsTake : Nat → List Char → Option (List Char × List Char)
  | 0, l => some ([], l)
  | _ + 1, [] => none
  | n + 1, c :: cs =>
      if c.isDigit then (digitsTake n cs).map (fun p => (c :: p.1, p.2)) else none

/-- `\d{4}-\d{2}-\d{2}`. -/
def ymdTake (l : List Char) : Option (List Char × List Char) :=
  match digitsTake 4 l with
  | none => none
  | some (d4, l1) =>
      match l1 with
      | '-' :: l2 =>
          match digitsTake 2 l2 with
          | none => none
          | some (dm, l3) =>
              match l3 with
              | '-' :: l4 =>
                  match digitsTake 2 l4 with
                  | none => none
                  | some (dd, l5) => some (d4 ++ '-' :: dm ++ '-' :: dd, l5)
              | _ => none
      | _ => none

/-- Close one alternative: its remainder of the pattern is just `\b`. -/
def altTry (r : Option (List Char × List Char)) : Option (List Char) :=
  match r with
  | some (m, rest) => if boundaryAfter rest then some m else none
  | none => none

/-- One attempt of `\b(today|tomorrow|\d{4}-\d{2}-\d{2})\b` (case-insensitive)
at the current position, alternatives tried in the pattern's order. -/
def matchDateAt (prev : Option Char) (l : List Char) : Option (List Char) :=
  if boundaryBefore prev then
    match altTry (ciTake ['t', 'o', 'd', 'a', 'y'] l) with
    | some m => some m
    | none =>
        match altTry (ciTake ['t', 'o', 'm', 'o', 'r', 'r', 'o', 'w'] l) with
        | some m => some m
        | none => altTry (ymdTake l)
  else none

/-- `re.search` scan for the date pattern: leftmost match wins. -/
def findDateFrom (prev : Option Char) : List Char → Option (List Char)
  | [] => none
  | c :: rest =>
      match matchDateAt prev (c :: rest) with
      | some m => some m
      | none => findDateFrom (some c) rest

/-- `date_match.group(1) if date_match else None` (lines 74, 77). -/
def extract_date (message : String) : Option String :=
  (findDateFrom none message.data).map String.mk

/-- The JSON body of the booking POST (lines 79-82). -/
def bookPayload (message : String) : Json :=
  .obj [("doctorName", jsonOfOpt (extract_doctor message)),
        ("date", jsonOfOpt (extract_date message))]

/-- The POST issued by line 84: target URL and JSON body. -/
def book_request (appointmentServiceBaseUrl apiGatewayUrl : Option String)
    (message : String) : String × Json :=
  (resolve_appointment_base_url appointmentServiceBaseUrl apiGatewayUrl ++ "/book",
    bookPayload message)

/-! ### detect_intent (lines 49-57)

The classifier lower-cases its input, so it is modelled over codepoint lists
(`List Nat`), where the ASCII case map and its interaction with whitespace
are easy to reason about. -/

/-- Python `str.isspace` characters, ASCII part. -/
def isWsN (n : Nat) : Bool :=
  n == 32 || n == 9 || n == 10 || n == 13 || n == 11 || n == 12

/-- `str.lower` on one codepoint (ASCII). -/
def lowerN (n : Nat) : Nat := if 65 ≤ n ∧ n ≤ 90 then n + 32 else n

/-- `message.lower()`. -/
def pyLower (l : List Nat) : List Nat := l.map lowerN

/-- `message.strip()`. -/
def pyStrip (l : List Nat) : List Nat :=
  List.rdropWhile isWsN (l.dropWhile isWsN)

/-- Codepoints of a Lean string literal. -/
def pyOfString (s : String) : List Nat := s.data.map Char.toNat

/-- Python `\w` on a codepoint (ASCII). -/
def isWordN (n : Nat) : Bool :=
  (48 ≤ n && n ≤ 57) || (65 ≤ n && n ≤ 90) || (97 ≤ n && n ≤ 122) || n == 95

/-- A word-bounded occurrence of the word `w` at the current position:
`\b w \b` where `prev` is the char before the position (none at the start). -/
def wordAt (prev : Option Nat) (l w : List Nat) : Bool :=
  (match prev with
   | none => true
   | some c => !isWordN c) &&
  w.isPrefixOf l &&
  (match l.drop w.length with
   | [] => true
   | c :: _ => !isWordN c)

/-- Search for `.*\b(w₁|w₂|...)\b` from the current position: some word of
`ws` occurs word-bounded after a gap free of newlines (`.` does not match
`\n`). -/
def searchSecondWord (ws : List (List Nat)) (prev : Option Nat) : List Nat → Bool
  | [] => false
  | c :: rest =>
      ws.any (fun w => wordAt prev (c :: rest) w) ||
        (!(c == 10) && searchSecondWord ws (some c) rest)

/-- `re.search` of `\b(first words)\b.*\b(second words)\b`: scan for a
word-bounded first word followed, after a newline-free gap, by a
word-bounded second word. -/
def searchWordPairPattern (ws1 ws2 : List (List Nat)) (prev : Option Nat) :
    List Nat → Bool
  | [] => false
  | c :: rest =>
      ws1.any (fun w =>
        wordAt prev (c :: rest) w &&
          searchSecondWord ws2 (some (w.getLastD 0)) ((c :: rest).drop w.length)) ||
        searchWordPairPattern ws1 ws2 (some c) rest

/-- Python `in` on strings: `sub` occurs as a contiguous part. -/
def containsSub (sub : List Nat) : List Nat → Bool
  | [] => sub.isEmpty
  | c :: rest => sub.isPrefixOf (c :: rest) || containsSub sub rest

/-- The rule cascade of lines 51-57 on the preprocessed text. -/
def intentOfText (text : List Nat) : String :=
  if [pyOfString "hi", pyOfString "hello", pyOfString "hey"].any
      (fun g => containsSub g text) then "greeting"
  else if searchWordPairPattern [pyOfString "book", pyOfString "schedule"]
      [pyOfString "appointment", pyOfString "appt"] none text then "book_appointment"
  else if searchWordPairPattern [pyOfString "show", pyOfString "list", pyOfString "my"]
        [pyOfString "appointments", pyOfString "appts"] none text
      || containsSub (pyOfString "show my appointments") text then "fetch_appointments"
  else "unknown"

/-- `detect_intent` (lines 49-57): `text = message.strip().lower()`, then the
rule cascade. -/
def detect_intent (message : List Nat) : String :=
  intentOfText (pyLower (pyStrip message))

/-! ### Eureka registration and heartbeat (lines 137-183) -/

/-- The registry-related configuration, read once at startup (lines 24-29),
for the case where a registry URL is configured. -/
structure EurekaConfig where
  eurekaServerUrl : String
  hostname : String
  appName : String
  port : Nat

/-- `EUREKA_APP_NAME.upper()` (ASCII). -/
def pyUpper (s : String) : String := String.map Char.toUpper s

/-- `instance_id` computed by the registration (line 141) and placed in the
registration payload (line 146). -/
def register_instance_id (hostname appName : String) (port : Nat) : String :=
  hostname ++ ":" ++ appName ++ ":" ++ toString port

/-- `instance_id` computed by the heartbeat loop (line 173).  The source
contains the dead conditional `EUREKA_APPNAME if False else EUREKA_APP_NAME`;
the name in the never-taken branch is undefined in the source and is never
evaluated (Python conditionals are lazy), so it is modelled as an arbitrary
value `deadBranch` about which nothing is assumed. -/
def heartbeat_instance_id (hostname appName : String) (port : Nat)
    (deadBranch : String) : String :=
  hostname ++ ":" ++ (if (false : Bool) then deadBranch else appName) ++ ":" ++
    toString port

/-- Registration target URL (line 143). -/
def register_url (cfg : EurekaConfig) : String :=
  rstripSlashes cfg.eurekaServerUrl ++ "/apps/" ++ pyUpper cfg.appName

/-- Heartbeat renewal URL (line 178), rebuilt each iteration from the
loop-constant `base`, `app_name_upper` and `instance_id`. -/
def heartbeat_url (cfg : EurekaConfig) (deadBranch : String) : String :=
  rstripSlashes cfg.eurekaServerUrl ++ "/apps/" ++ pyUpper cfg.appName ++ "/" ++
    heartbeat_instance_id cfg.hostname cfg.appName cfg.port deadBranch

/-- Observable actions of one heartbeat iteration. -/
inductive HbEvent where
  | put (url : String)
  | sleep (seconds : Nat)
deriving DecidableEq

/-- Outcome of one renewal PUT: a response (status) or a raised exception. -/
inductive PutOutcome where
  | ok (status : Nat)
  | exn (desc : String)

/-- One iteration of the `while True` body (lines 176-183): attempt the PUT,
swallow any exception (`except: pass`), then `time.sleep(30)`. -/
def heartbeat_iteration (cfg : EurekaConfig) (deadBranch : String)
    (outcome : PutOutcome) : List HbEvent :=
  HbEvent.put (heartbeat_url cfg deadBranch) ::
    ((match outcome with
      | .ok _ => ([] : List HbEvent)
      | .exn _ => []) ++
      [HbEvent.sleep 30])

/-- The events of the `n`-th iteration, given the outcome of every PUT so
far (`outcomes`). -/
def heartbeat_events (cfg : EurekaConfig) (deadBranch : String)
    (outcomes : Nat → PutOutcome) (n : Nat) : List HbEvent :=
  heartbeat_iteration cfg deadBranch (outcomes n)

/-- All events of the first `n` iterations. -/
def heartbeat_trace (cfg : EurekaConfig) (deadBranch : String)
    (outcomes : Nat → PutOutcome) : Nat → List HbEvent
  | 0 => []
  | n + 1 =>
      heartbeat_trace cfg deadBranch outcomes n ++
        heartbeat_events cfg deadBranch outcomes n

/-- Renewal requests among the events. -/
def isPut : HbEvent → Bool
  | .put _ => true
  | .sleep _ => false

/-- 30-second sleeps among the events. -/
def isSleep30 : HbEvent → Bool
  | .sleep 30 => true
  | _ => false

/-! ## Helper lemmas -/

theorem rdropWhile_getLast?_not {α : Type} {p : α → Bool} {l : List α} {c : α}
    (hc : (List.rdropWhile p l).getLast? = some c) : p c = false := by
  have hne : List.rdropWhile p l ≠ [] := by
    intro h
    rw [h] at hc
    simp at hc
  have hlast := List.rdropWhile_last_not p l hne
  rw [List.getLast?_eq_getLast _ hne] at hc
  have : (List.rdropWhile p l).getLast hne = c := by
    injection hc
  rw [this] at hlast
  exact Bool.not_eq_true _ ▸ Bool.eq_false_iff.mpr hlast

theorem rstripSlashes_no_trailing (s : String) :
    (rstripSlashes s).data.getLast? ≠ some '/' := by
  intro h
  have h' : (List.rdropWhile (fun c => c == '/') s.data).getLast? = some '/' := h
  have hf := rdropWhile_getLast?_not (p := fun c => c == '/') (c := '/') h'
  simp at hf

theorem rstripSlashes_idem (s : String) :
    rstripSlashes (rstripSlashes s) = rstripSlashes s := by
  unfold rstripSlashes
  rw [show (String.mk (List.rdropWhile (fun c => c == '/') s.data)).data
      = List.rdropWhile (fun c => c == '/') s.data from rfl]
  rw [List.rdropWhile_idempotent]

theorem string_append_ne_empty_right (a b : String) (hb : b ≠ "") : a ++ b ≠ "" := by
  intro h
  have hd := congrArg String.data h
  rw [String.data_append] at hd
  have hb2 : b.data = [] := (List.append_eq_nil.mp hd).2
  apply hb
  cases b
  simp_all

/-! ## Claims -/

/-- Claim C2: `resolve_appointment_base_url` obeys the fixed, total precedence
direct URL (normalized, no trailing slash) > gateway URL + "/appointments" >
literal fallback, and in every configuration returns a non-empty string. -/
theorem resolver_precedence (dRaw gRaw : Option String) :
    (optTruthy (_normalize_base_url dRaw) = true →
      resolve_appointment_base_url (_normalize_base_url dRaw) (_normalize_base_url gRaw) =
        (_normalize_base_url dRaw).getD ""
      ∧ ((_normalize_base_url dRaw).getD "").data.getLast? ≠ some '/')
  ∧ (optTruthy (_normalize_base_url dRaw) = false →
      optTruthy (_normalize_base_url gRaw) = true →
      resolve_appointment_base_url (_normalize_base_url dRaw) (_normalize_base_url gRaw) =
        (_normalize_base_url gRaw).getD "" ++ "/appointments")
  ∧ (optTruthy (_normalize_base_url dRaw) = false →
      optTruthy (_normalize_base_url gRaw) = false →
      resolve_appointment_base_url (_normalize_base_url dRaw) (_normalize_base_url gRaw) =
        "http://appointment-service:8083")
  ∧ (∀ d g : Option String, resolve_appointment_base_url d g ≠ "") := by
  refine ⟨?_, ?_, ?_, ?_⟩
  · intro h
    constructor
    · unfold resolve_appointment_base_url
      rw [if_pos h]
    · cases dRaw with
      | none => simp [_normalize_base_url, optTruthy] at h
      | some s =>
          simp only [_normalize_base_url] at h ⊢
          by_cases hs : s.isEmpty
          · rw [if_pos hs] at h
            simp [optTruthy] at h
          · rw [if_neg hs]
            exact rstripSlashes_no_trailing s
  · intro h1 h2
    unfold resolve_appointment_base_url
    rw [if_neg (by simp [h1]), if_pos h2]
  · intro h1 h2
    unfold resolve_appointment_base_url
    rw [if_neg (by simp [h1]), if_neg (by simp [h2])]
  · intro d g
    unfold resolve_appointment_base_url
    split_ifs with h1 h2
    · cases d with
      | none => simp [optTruthy] at h1
      | some s =>
          simp only [optTruthy] at h1
          simp only [Option.getD_some]
          intro hs
          rw [hs] at h1
          exact absurd h1 (by decide)
    · exact string_append_ne_empty_right _ _ (by decide)
    · decide

/-- Witness for claim C2 at concrete configurations. -/
theorem resolver_precedence_witness :
    resolve_appointment_base_url (_normalize_base_url (some "http://a/"))
      (_normalize_base_url (some "http://g")) = "http://a"
  ∧ resolve_appointment_base_url (_normalize_base_url none)
      (_normalize_base_url (some "http://g/")) = "http://g/appointments" := by
  constructor
  · have h := (resolver_precedence (some "http://a/") (some "http://g")).1 (by decide)
    rw [h.1]
    decide
  · have h := (resolver_precedence none (some "http://g/")).2.1 (by decide) (by decide)
    rw [h]
    decide

/-- Claim C9: startup normalization strips trailing slashes exactly once
(the result has no trailing slash and re-stripping changes nothing), and an
unset or empty configured URL stays absent; all four configured base URLs
are normalized this way. -/
theorem normalize_base_url_spec (s : String) (u : Option String) (c : BaseUrlConfig) :
    _normalize_base_url none = none
  ∧ _normalize_base_url (some "") = none
  ∧ (_normalize_base_url u = none ↔ u = none ∨ u = some "")
  ∧ (s ≠ "" → _normalize_base_url (some s) = some (rstripSlashes s))
  ∧ (rstripSlashes s).data.getLast? ≠ some '/'
  ∧ rstripSlashes (rstripSlashes s) = rstripSlashes s
  ∧ normalizeStartupConfig c =
      ⟨_normalize_base_url c.apiGatewayUrl,
       _normalize_base_url c.appointmentServiceBaseUrl,
       _normalize_base_url c.patientServiceBaseUrl,
       _normalize_base_url c.doctorServiceBaseUrl⟩ := by
  refine ⟨rfl, rfl, ?_, ?_, rstripSlashes_no_trailing s, rstripSlashes_idem s, rfl⟩
  · cases u with
    | none => simp [_normalize_base_url]
    | some t =>
        simp only [_normalize_base_url]
        by_cases ht : t.isEmpty
        · rw [if_pos ht]
          simp [String.isEmpty_iff t |>.mp ht]
        · rw [if_neg ht]
          have he : t ≠ "" := fun he2 => ht ((String.isEmpty_iff t).mpr he2)
          simp [he]
  · intro hs
    simp only [_normalize_base_url]
    rw [if_neg (fun he => hs ((String.isEmpty_iff s).mp he))]

/-- Witness for claim C9 at a concrete URL with trailing slashes. -/
theorem normalize_base_url_spec_witness :
    _normalize_base_url (some "http://x//") = some "http://x"
  ∧ _normalize_base_url (some "") = none := by
  have h := normalize_base_url_spec "http://x//" none ⟨none, none, none, none⟩
  constructor
  · rw [h.2.2.2.1 (by decide)]
    decide
  · exact h.2.1

/-- Claim C1: for every message and every downstream failure outcome, both
orchestrator operations return a (templated) string and never raise: a
status of 400 or more yields the failure message embedding the status code,
and a raised exception — including a malformed body, whose parse raises —
yields the apology message embedding the exception's description. -/
theorem orchestrator_absorbs_failures (msg : String) (st : Nat)
    (b : Except String Json) (e : String) :
    book_appointment_via_api msg (.exn e) =
      .str ("Sorry, something went wrong while booking the appointment: " ++ e)
  ∧ fetch_appointments_via_api (.exn e) =
      "Sorry, something went wrong while fetching appointments: " ++ e
  ∧ (400 ≤ st →
      book_appointment_via_api msg (.response st b) =
        .str ("Sorry, I couldn't book the appointment right now (status " ++
          toString st ++ ")."))
  ∧ (400 ≤ st →
      fetch_appointments_via_api (.response st b) =
        "Couldn't fetch appointments (status " ++ toString st ++ ").")
  ∧ (st < 400 →
      book_appointment_via_api msg (.response st (.error e)) =
        .str ("Sorry, something went wrong while booking the appointment: " ++ e))
  ∧ (st < 400 →
      fetch_appointments_via_api (.response st (.error e)) =
        "Sorry, something went wrong while fetching appointments: " ++ e) := by
  refine ⟨rfl, rfl, ?_, ?_, ?_, ?_⟩
  · intro h
    simp only [book_appointment_via_api]
    rw [if_pos h]
  · intro h
    simp only [fetch_appointments_via_api]
    rw [if_pos h]
  · intro h
    simp only [book_appointment_via_api]
    rw [if_neg (by omega)]
  · intro h
    simp only [fetch_appointments_via_api]
    rw [if_neg (by omega)]

/-- Witness for claim C1 at concrete failure outcomes. -/
theorem orchestrator_absorbs_failures_witness :
    book_appointment_via_api "book an appointment" (.response 503 (.ok .null)) =
      .str "Sorry, I couldn't book the appointment right now (status 503)."
  ∧ fetch_appointments_via_api (.response 200 (.error "Expecting value")) =
      "Sorry, something went wrong while fetching appointments: Expecting value" := by
  have h := orchestrator_absorbs_failures "book an appointment" 503 (.ok .null) "x"
  have h2 := orchestrator_absorbs_failures "x" 200 (.ok .null) "Expecting value"
  constructor
  · rw [h.2.2.1 (by omega), Json.str.injEq]
    decide
  · rw [h2.2.2.2.2.2 (by omega)]
    decide

/-- Counterexample to claim C4 as stated: a success body that contains a
`message` field whose value is the empty string is not returned verbatim —
the generic confirmation is returned instead (Python's `or` also rejects
present-but-falsy values). -/
theorem book_message_verbatim_counterexample :
    book_appointment_via_api "book an appointment"
      (.response 201 (.ok (.obj [("message", .str "")]))) =
      .str "Your appointment request has been submitted."
  ∧ Json.str "Your appointment request has been submitted." ≠ Json.str "" := by
  constructor
  · rfl
  · intro h
    rw [Json.str.injEq] at h
    exact absurd h (by decide)

/-- Claim C4 (amended): on a success response (status < 400) whose body is a
JSON object, a truthy `message` field is returned verbatim; an absent or
falsy (null/empty/zero/false) `message` field yields the generic
confirmation string; in particular status 201 with message "Booked!" yields
exactly "Booked!". -/
theorem book_success_message (msg : String) (st : Nat) (fs : List (String × Json)) :
    (st < 400 → jsonTruthy (dictGet fs "message") = true →
      book_appointment_via_api msg (.response st (.ok (.obj fs))) =
        dictGet fs "message")
  ∧ (st < 400 → jsonTruthy (dictGet fs "message") = false →
      book_appointment_via_api msg (.response st (.ok (.obj fs))) =
        .str "Your appointment request has been submitted.")
  ∧ book_appointment_via_api msg
      (.response 201 (.ok (.obj [("message", .str "Booked!")]))) =
      .str "Booked!" := by
  refine ⟨?_, ?_, rfl⟩
  · intro h ht
    simp only [book_appointment_via_api]
    rw [if_neg (by omega)]
    simp only [pyOr]
    rw [if_pos ht]
  · intro h ht
    simp only [book_appointment_via_api]
    rw [if_neg (by omega)]
    simp only [pyOr]
    rw [if_neg (by simp [ht])]

/-- Witness for claim C4 (amended) at concrete bodies. -/
theorem book_success_message_witness :
    book_appointment_via_api "m" (.response 200 (.ok (.obj [("message", .str "Done")]))) =
      .str "Done"
  ∧ book_appointment_via_api "m" (.response 200 (.ok (.obj [("note", .str "x")]))) =
      .str "Your appointment request has been submitted." := by
  constructor
  · have h := (book_success_message "m" 200 [("message", .str "Done")]).1
      (by omega) (by decide)
    rw [h]
    rfl
  · exact (book_success_message "m" 200 [("note", .str "x")]).2.1
      (by omega) (by decide)

theorem renderLines_all_obj (xs : List Json)
    (h : ∀ a ∈ xs, ∃ fs, a = Json.obj fs) :
    renderLines xs = .ok (xs.map renderedLine) := by
  induction xs with
  | nil => rfl
  | cons x rest ih =>
      obtain ⟨fs, hfs⟩ := h x (by simp)
      subst hfs
      simp only [renderLines, renderApptLine, List.map_cons, renderedLine]
      rw [ih (fun a ha => h a (by simp [ha]))]

/-- Counterexample to claim C3 as stated: a present-but-empty `doctorName`
field is not "the first non-absent of doctorName, doctor, doctor_id" — the
code's `or`-chain skips the falsy empty string and renders the `doctor`
field instead. -/
theorem fetch_rendering_counterexample :
    fetch_appointments_via_api (.response 200 (.ok (.arr
      [.obj [("doctorName", .str ""), ("doctor", .str "X"),
             ("date", .str "2024-05-01")]]))) =
      "Here are your upcoming appointments:\n- 2024-05-01 with Dr. X"
  ∧ ("Here are your upcoming appointments:\n- 2024-05-01 with Dr. X" : String) ≠
      "Here are your upcoming appointments:\n- 2024-05-01 with Dr. " := by
  exact ⟨by decide, by decide⟩

/-- Claim C3 (amended): on a success response whose JSON body is a non-empty
list all of whose first five entries are objects, the reply is the header
plus one line per entry for at most the first 5 entries, each line
`- <date> with Dr. <doctor>` where doctor is the first *truthy* of
doctorName/doctor/doctor_id and date the first *truthy* of
date/appointmentDate (so exactly `min 5 (length)` lines — 5 for a 7-element
list); an empty or non-list body yields the fixed no-appointments message. -/
theorem fetch_appointments_rendering (st : Nat) (xs : List Json) (j : Json) :
    (st < 400 → xs ≠ [] → (∀ a ∈ xs.take 5, ∃ fs, a = Json.obj fs) →
      fetch_appointments_via_api (.response st (.ok (.arr xs))) =
        "Here are your upcoming appointments:\n" ++
          String.intercalate "\n" ((xs.take 5).map renderedLine)
      ∧ ((xs.take 5).map renderedLine).length = min 5 xs.length)
  ∧ (st < 400 →
      fetch_appointments_via_api (.response st (.ok (.arr []))) =
        "You have no upcoming appointments.")
  ∧ (st < 400 → (∀ ys, j ≠ .arr ys) →
      fetch_appointments_via_api (.response st (.ok j)) =
        "You have no upcoming appointments.") := by
  refine ⟨?_, ?_, ?_⟩
  · intro hst hne hobj
    constructor
    · cases xs with
      | nil => exact absurd rfl hne
      | cons x rest =>
          simp only [fetch_appointments_via_api]
          rw [if_neg (by omega), renderLines_all_obj _ hobj]
    · rw [List.length_map, List.length_take]
  · intro hst
    simp only [fetch_appointments_via_api]
    rw [if_neg (by omega)]
  · intro hst hj
    cases j with
    | arr ys => exact absurd rfl (hj ys)
    | null => simp only [fetch_appointments_via_api]; rw [if_neg (by omega)]
    | bool b => simp only [fetch_appointments_via_api]; rw [if_neg (by omega)]
    | num n => simp only [fetch_appointments_via_api]; rw [if_neg (by omega)]
    | str s => simp only [fetch_appointments_via_api]; rw [if_neg (by omega)]
    | obj fs => simp only [fetch_appointments_via_api]; rw [if_neg (by omega)]

/-- Witness for claim C3 (amended): a 7-element list yields the header plus
exactly the first 5 formatted lines. -/
theorem fetch_appointments_rendering_witness :
    fetch_appointments_via_api (.response 200 (.ok (.arr
      [.obj [("doctorName", .str "A"), ("date", .str "2024-01-01")],
       .obj [("doctor", .str "B"), ("appointmentDate", .str "2024-01-02")],
       .obj [("doctor_id", .num 7), ("date", .str "2024-01-03")],
       .obj [("doctorName", .str "D"), ("date", .str "2024-01-04")],
       .obj [("doctorName", .str "E"), ("date", .str "2024-01-05")],
       .obj [("doctorName", .str "F"), ("date", .str "2024-01-06")],
       .obj [("doctorName", .str "G"), ("date", .str "2024-01-07")]]))) =
      "Here are your upcoming appointments:\n- 2024-01-01 with Dr. A\n- 2024-01-02 with Dr. B\n- 2024-01-03 with Dr. 7\n- 2024-01-04 with Dr. D\n- 2024-01-05 with Dr. E" := by
  have h := (fetch_appointments_rendering 200
      [.obj [("doctorName", .str "A"), ("date", .str "2024-01-01")],
       .obj [("doctor", .str "B"), ("appointmentDate", .str "2024-01-02")],
       .obj [("doctor_id", .num 7), ("date", .str "2024-01-03")],
       .obj [("doctorName", .str "D"), ("date", .str "2024-01-04")],
       .obj [("doctorName", .str "E"), ("date", .str "2024-01-05")],
       .obj [("doctorName", .str "F"), ("date", .str "2024-01-06")],
       .obj [("doctorName", .str "G"), ("date", .str "2024-01-07")]] Json.null).1
    (by omega) (by simp)
    (by
      intro a ha
      simp only [List.take_succ_cons, List.take_zero, List.mem_cons,
        List.not_mem_nil, or_false] at ha
      rcases ha with rfl | rfl | rfl | rfl | rfl <;> exact ⟨_, rfl⟩)
  rw [h.1]
  decide

/-- Claim C10: an object entry with none of the doctor keys (or none of the
date keys) is still rendered — never skipped, never an error — with the
missing value shown as the literal text "None". -/
theorem fetch_missing_fields_render_none (fs : List (String × Json)) :
    (fs.lookup "doctorName" = none → fs.lookup "doctor" = none →
      fs.lookup "doctor_id" = none →
      renderApptLine (.obj fs) =
        .ok ("- " ++ pyStrOf (pyOr (dictGet fs "date") (dictGet fs "appointmentDate"))
          ++ " with Dr. None"))
  ∧ (fs.lookup "date" = none → fs.lookup "appointmentDate" = none →
      renderApptLine (.obj fs) =
        .ok ("- None with Dr. " ++
          pyStrOf (pyOr (dictGet fs "doctorName")
            (pyOr (dictGet fs "doctor") (dictGet fs "doctor_id")))))
  ∧ fetch_appointments_via_api (.response 200 (.ok (.arr [.obj []]))) =
      "Here are your upcoming appointments:\n- None with Dr. None" := by
  refine ⟨?_, ?_, by decide⟩
  · intro h1 h2 h3
    simp only [renderApptLine, renderApptLineObj, dictGet, h1, h2, h3]
    rw [String.append_assoc]
    rfl
  · intro h1 h2
    simp only [renderApptLine, renderApptLineObj, dictGet, h1, h2]
    rfl

/-- Witness for claim C10 at a concrete entry lacking all doctor keys. -/
theorem fetch_missing_fields_render_none_witness :
    renderApptLine (.obj [("date", Json.str "2024-05-01")]) =
      .ok "- 2024-05-01 with Dr. None" := by
  have h := (fetch_missing_fields_render_none [("date", Json.str "2024-05-01")]).1
    rfl rfl rfl
  rw [h]
  rfl

theorem lettersPlus_ne_nil {l t : List Char} (h : lettersPlus l = some t) :
    t ≠ [] := by
  unfold lettersPlus at h
  split at h
  · exact absurd h (by simp)
  · injection h with h2
    rw [← h2]
    simp

theorem matchDoctorAt_ne_nil {l t : List Char} (h : matchDoctorAt l = some t) :
    t ≠ [] := by
  unfold matchDoctorAt at h
  split at h
  · exact absurd h (by simp)
  · split at h
    · exact absurd h (by simp)
    · split at h
      · exact absurd h (by simp)
      · split at h
        · exact absurd h (by simp)
        · exact lettersPlus_ne_nil h

theorem findDoctorFrom_ne_nil (l : List Char) :
    ∀ {t}, findDoctorFrom l = some t → t ≠ [] := by
  induction l with
  | nil => intro t h; simp [findDoctorFrom] at h
  | cons c rest ih =>
      intro t h
      simp only [findDoctorFrom] at h
      split at h
      · rename_i heq
        injection h with h2
        rw [← h2]
        exact matchDoctorAt_ne_nil heq
      · exact ih h

theorem ciTake_ne_nil {a : Char} {pat l m rest} (h : ciTake (a :: pat) l = some (m, rest)) :
    m ≠ [] := by
  cases l with
  | nil => simp [ciTake] at h
  | cons c cs =>
      simp only [ciTake] at h
      split at h
      · cases hp : ciTake pat cs with
        | none => rw [hp] at h; simp at h
        | some p =>
            rw [hp] at h
            simp only [Option.map] at h
            injection h with h2
            have : c :: p.1 = m := congrArg Prod.fst h2
            rw [← this]
            simp
      · exact absurd h (by simp)

theorem ymdTake_ne_nil {l m rest} (h : ymdTake l = some (m, rest)) : m ≠ [] := by
  unfold ymdTake at h
  split at h
  · exact absurd h (by simp)
  · split at h
    · split at h
      · exact absurd h (by simp)
      · split at h
        · split at h
          · exact absurd h (by simp)
          · injection h with h2
            have hm : _ = m := congrArg Prod.fst h2
            rw [← hm]
            intro hnil
            simp [List.append_eq_nil] at hnil
        · exact absurd h (by simp)
    · exact absurd h (by simp)

theorem altTry_ciTake_ne_nil {a : Char} {pat l m}
    (h : altTry (ciTake (a :: pat) l) = some m) : m ≠ [] := by
  unfold altTry at h
  split at h
  · rename_i m2 rest2 heq
    split at h
    · injection h with h2
      rw [← h2]
      exact ciTake_ne_nil heq
    · exact absurd h (by simp)
  · exact absurd h (by simp)

theorem altTry_ymd_ne_nil {l m} (h : altTry (ymdTake l) = some m) : m ≠ [] := by
  unfold altTry at h
  split at h
  · rename_i m2 rest2 heq
    split at h
    · injection h with h2
      rw [← h2]
      exact ymdTake_ne_nil heq
    · exact absurd h (by simp)
  · exact absurd h (by simp)

theorem matchDateAt_ne_nil {prev : Option Char} {l t}
    (h : matchDateAt prev l = some t) : t ≠ [] := by
  unfold matchDateAt at h
  split at h
  · split at h
    · rename_i heq
      injection h with h2
      rw [← h2]
      exact altTry_ciTake_ne_nil heq
    · split at h
      · rename_i heq
        injection h with h2
        rw [← h2]
        exact altTry_ciTake_ne_nil heq
      · exact altTry_ymd_ne_nil h
  · exact absurd h (by simp)

theorem findDateFrom_ne_nil (l : List Char) :
    ∀ {prev t}, findDateFrom prev l = some t → t ≠ [] := by
  induction l with
  | nil => intro prev t h; simp [findDateFrom] at h
  | cons c rest ih =>
      intro prev t h
      simp only [findDateFrom] at h
      split at h
      · rename_i heq
        injection h with h2
        rw [← h2]
        exact matchDateAt_ne_nil heq
      · exact ih h

/-- Claim C5: the booking entity extraction returns the captured groups of
the two regexes ("Lee" and "2024-05-01" on the example message), is absent
(Python `None`, forwarded as JSON `null` — never the empty string) when a
pattern does not match, and the POST to `<base>/book` is still issued with
null fields rather than failing locally. -/
theorem booking_entity_extraction (msg : String) :
    extract_doctor "book with dr. Lee on 2024-05-01" = some "Lee"
  ∧ extract_date "book with dr. Lee on 2024-05-01" = some "2024-05-01"
  ∧ extract_doctor "book an appointment" = none
  ∧ extract_date "book an appointment" = none
  ∧ bookPayload msg =
      .obj [("doctorName", jsonOfOpt (extract_doctor msg)),
            ("date", jsonOfOpt (extract_date msg))]
  ∧ (extract_doctor msg = none →
      bookPayload msg =
        .obj [("doctorName", Json.null), ("date", jsonOfOpt (extract_date msg))])
  ∧ (extract_date msg = none →
      bookPayload msg =
        .obj [("doctorName", jsonOfOpt (extract_doctor msg)), ("date", Json.null)])
  ∧ extract_doctor msg ≠ some ""
  ∧ extract_date msg ≠ some ""
  ∧ (∀ d g : Option String, book_request d g msg =
      (resolve_appointment_base_url d g ++ "/book", bookPayload msg)) := by
  refine ⟨by decide, by decide, by decide, by decide, rfl, ?_, ?_, ?_, ?_,
    fun d g => rfl⟩
  · intro h
    unfold bookPayload
    rw [h]
    rfl
  · intro h
    unfold bookPayload
    rw [h]
    rfl
  · unfold extract_doctor
    cases hf : findDoctorFrom msg.data with
    | none => simp
    | some t =>
        have ht := findDoctorFrom_ne_nil msg.data hf
        intro h
        simp only [Option.map] at h
        injection h with h2
        exact ht (congrArg String.data h2)
  · unfold extract_date
    cases hf : findDateFrom none msg.data with
    | none => simp
    | some t =>
        have ht := findDateFrom_ne_nil msg.data hf
        intro h
        simp only [Option.map] at h
        injection h with h2
        exact ht (congrArg String.data h2)

/-- Witness for claim C5: a message in which neither pattern matches still
produces the full payload, with both fields null. -/
theorem booking_entity_extraction_witness :
    bookPayload "book an appointment" =
      .obj [("doctorName", Json.null), ("date", Json.null)] := by
  have h := booking_entity_extraction "book an appointment"
  have e := h.2.2.2.2.2.1 h.2.2.1
  rw [e]
  rfl

theorem isWsN_lowerN (n : Nat) : isWsN (lowerN n) = isWsN n := by
  unfold lowerN
  split
  · rename_i h
    have h1 : isWsN (n + 32) = false := by
      simp only [isWsN, Bool.or_eq_false_iff, beq_eq_false_iff_ne, ne_eq]
      omega
    have h2 : isWsN n = false := by
      simp only [isWsN, Bool.or_eq_false_iff, beq_eq_false_iff_ne, ne_eq]
      omega
    rw [h1, h2]
  · rfl

theorem lowerN_idem (n : Nat) : lowerN (lowerN n) = lowerN n := by
  unfold lowerN
  split_ifs <;> omega

theorem pyLower_idem (l : List Nat) : pyLower (pyLower l) = pyLower l := by
  unfold pyLower
  rw [List.map_map]
  congr 1
  funext n
  exact lowerN_idem n

theorem pyStrip_pyLower (l : List Nat) : pyStrip (pyLower l) = pyLower (pyStrip l) := by
  have hcomp : (isWsN ∘ lowerN) = isWsN := funext isWsN_lowerN
  unfold pyStrip pyLower
  rw [List.dropWhile_map, hcomp]
  simp only [List.rdropWhile]
  rw [← List.map_reverse, List.dropWhile_map, hcomp, ← List.map_reverse]

theorem dropWhile_eq_self_of_prefixed {α : Type} {p : α → Bool} {m q : List α}
    (hq : q <+: m) (hm : m.dropWhile p = m) : q.dropWhile p = q := by
  cases q with
  | nil => rfl
  | cons a r =>
      obtain ⟨t, ht⟩ := hq
      rw [← ht] at hm
      rw [List.cons_append] at hm
      by_cases hpa : p a
      · exfalso
        rw [List.dropWhile_cons_of_pos hpa] at hm
        have : ((r ++ t).dropWhile p).length ≤ (r ++ t).length :=
          (List.dropWhile_suffix p).sublist.length_le
        rw [hm] at this
        simp at this
      · exact List.dropWhile_cons_of_neg hpa

theorem pyStrip_idem (l : List Nat) : pyStrip (pyStrip l) = pyStrip l := by
  unfold pyStrip
  rw [dropWhile_eq_self_of_prefixed (List.rdropWhile_prefix isWsN (l.dropWhile isWsN))
    (List.dropWhile_idempotent isWsN l)]
  exact List.rdropWhile_idempotent isWsN _

/-- Claim C6: `detect_intent` is case-insensitive
(`detect_intent s = detect_intent (s.lower())`), insensitive to surrounding
whitespace, and total: every message maps to exactly one of the four
intents, with "unknown" as the catch-all. -/
theorem detect_intent_case_insensitive (s : List Nat) :
    detect_intent (pyLower s) = detect_intent s
  ∧ detect_intent (pyStrip s) = detect_intent s
  ∧ (detect_intent s = "greeting" ∨ detect_intent s = "book_appointment" ∨
      detect_intent s = "fetch_appointments" ∨ detect_intent s = "unknown") := by
  refine ⟨?_, ?_, ?_⟩
  · unfold detect_intent
    rw [pyStrip_pyLower, pyLower_idem]
  · unfold detect_intent
    rw [pyStrip_idem]
  · unfold detect_intent intentOfText
    split_ifs <;> simp

/-- Claim C7: the heartbeat loop performs exactly one renewal PUT followed by
one 30-second sleep in every iteration, for every iteration index (no
termination condition), independently of the outcome — success or failure —
of this or any other iteration (failures are swallowed, no backoff, no
retry budget); over the first n intervals exactly n PUTs and n sleeps
occur. -/
theorem heartbeat_loop_periodic (cfg : EurekaConfig) (deadBranch : String)
    (outcomes outcomes' : Nat → PutOutcome) (n m : Nat) :
    heartbeat_events cfg deadBranch outcomes n =
      [HbEvent.put (heartbeat_url cfg deadBranch), HbEvent.sleep 30]
  ∧ heartbeat_events cfg deadBranch outcomes n =
      heartbeat_events cfg deadBranch outcomes' m
  ∧ (heartbeat_trace cfg deadBranch outcomes n).countP isPut = n
  ∧ (heartbeat_trace cfg deadBranch outcomes n).countP isSleep30 = n := by
  have hiter : ∀ (o : Nat → PutOutcome) (k : Nat),
      heartbeat_events cfg deadBranch o k =
        [HbEvent.put (heartbeat_url cfg deadBranch), HbEvent.sleep 30] := by
    intro o k
    unfold heartbeat_events heartbeat_iteration
    cases o k <;> rfl
  refine ⟨hiter outcomes n, (hiter outcomes n).trans (hiter outcomes' m).symm, ?_, ?_⟩
  · induction n with
    | zero => rfl
    | succ k ih =>
        unfold heartbeat_trace
        rw [List.countP_append, ih, hiter outcomes k]
        rfl
  · induction n with
    | zero => rfl
    | succ k ih =>
        unfold heartbeat_trace
        rw [List.countP_append, ih, hiter outcomes k]
        rfl

/-- Claim C8: the heartbeat's instance id — whose dead conditional always
takes the else branch and evaluates to the app name — is, whatever value the
dead branch would have, exactly the instance id computed at registration,
so every renewal PUT of every iteration targets the registration's
instance id. -/
theorem heartbeat_uses_registration_instance_id (hostname appName : String)
    (port : Nat) (deadBranch : String) (cfg : EurekaConfig)
    (outcomes : Nat → PutOutcome) (n : Nat) :
    heartbeat_instance_id hostname appName port deadBranch =
      register_instance_id hostname appName port
  ∧ heartbeat_url cfg deadBranch =
      register_url cfg ++ "/" ++
        register_instance_id cfg.hostname cfg.appName cfg.port
  ∧ (heartbeat_events cfg deadBranch outcomes n).filter isPut =
      [HbEvent.put (register_url cfg ++ "/" ++
        register_instance_id cfg.hostname cfg.appName cfg.port)] := by
  have hid : ∀ h a p d, heartbeat_instance_id h a p d = register_instance_id h a p :=
    fun h a p d => rfl
  have hurl : heartbeat_url cfg deadBranch =
      register_url cfg ++ "/" ++
        register_instance_id cfg.hostname cfg.appName cfg.port := by
    unfold heartbeat_url register_url
    rw [hid]
  refine ⟨hid hostname appName port deadBranch, hurl, ?_⟩
  unfold heartbeat_events heartbeat_iteration
  rw [← hurl]
  cases outcomes n <;> rfl
